import Mathlib

/-!
Verification of the WebSocket framing layer (`src/ws/frame.rs`).

Byte buffers are modelled as `List Nat` (each element a byte value), machine
integers as `Nat`.  The fallible, non-blocking results of the Rust code
(`Poll<T, ProtocolError>` = `Result<Async<T>, ProtocolError>`) are modelled as
`Except ProtocolError (Async T)`.  The incremental byte source
(`PayloadHelper`) is not part of the given source tree; it is modelled from
the spec's byte-source contract (spec section 6) as a list of buffered chunks
together with an end-of-stream flag.  The `panic!` branch of `Frame::parse`
is modelled by returning `none` from `Frame.parse`.
-/

/-- Poll result of a non-blocking operation: either a value or `NotReady`
(the Rust `Async` enum from the `futures` crate). -/
inductive Async (α : Type) : Type where
  | Ready (val : α) : Async α
  | NotReady : Async α
deriving DecidableEq

/-- Modelled from the spec: the closed opcode set
`{Continuation, Text, Binary, Close, Ping, Pong, Bad}` (spec section 3);
`ws::proto` is not part of the given source tree. -/
inductive OpCode : Type where
  | Continuation : OpCode
  | Text : OpCode
  | Binary : OpCode
  | Close : OpCode
  | Ping : OpCode
  | Pong : OpCode
  | Bad : OpCode
deriving DecidableEq

/-- Modelled from the spec: the wire nibble of an opcode (standard WebSocket
values, fixed by the source's tests: Text frame first byte `0x01`, Close
`0x88`, Ping `0x89`, Pong `0x8A`).  `Bad` is never emitted (spec section 3);
its byte value is immaterial here. -/
def OpCode.toByte : OpCode → Nat
  | .Continuation => 0
  | .Text => 1
  | .Binary => 2
  | .Close => 8
  | .Ping => 9
  | .Pong => 10
  | .Bad => 8

/-- Modelled from the spec: mapping a wire nibble to an opcode; any nibble
outside the valid set (reserved values 3-7 and 11-15) maps to the `Bad`
sentinel (spec section 3). -/
def OpCode.fromNibble : Nat → OpCode
  | 0 => .Continuation
  | 1 => .Text
  | 2 => .Binary
  | 8 => .Close
  | 9 => .Ping
  | 10 => .Pong
  | _ => .Bad

/-- Modelled from the spec: close status codes (spec section 3 names Normal,
Away, Protocol error, Unsupported, and the `Empty` sentinel). -/
inductive CloseCode : Type where
  | Normal : CloseCode
  | Away : CloseCode
  | Protocol : CloseCode
  | Unsupported : CloseCode
  | Empty : CloseCode
deriving DecidableEq

/-- Modelled from the spec: the 16-bit status value of a close code
(Normal = 1000 = 0x03E8 per the spec's concrete scenario; the others carry
their standard RFC 6455 values). -/
def CloseCode.toU16 : CloseCode → Nat
  | .Normal => 1000
  | .Away => 1001
  | .Protocol => 1002
  | .Unsupported => 1003
  | .Empty => 1005

/-- Protocol-violation errors produced during decode (the variants of
`ws::ProtocolError` exercised by `frame.rs`). -/
inductive ProtocolError : Type where
  | UnmaskedFrame : ProtocolError
  | MaskedFrame : ProtocolError
  | InvalidOpcode (nibble : Nat) : ProtocolError
  | Overflow : ProtocolError
  | InvalidLength (n : Nat) : ProtocolError
deriving DecidableEq

/-- A WebSocket frame: fin flag, opcode, payload bytes. -/
structure Frame : Type where
  finished : Bool
  opcode : OpCode
  payload : List Nat
deriving DecidableEq

/-- The `Default` impl for `Frame`: an empty final Close frame. -/
def Frame.default : Frame := ⟨true, .Close, []⟩

/-- Big-endian bytes of a value, `k` bytes wide
(`byteorder::BigEndian::write_uint`). -/
def beBytes : Nat → Nat → List Nat
  | 0, _ => []
  | k + 1, v => beBytes k (v / 256) ++ [v % 256]

/-- Big-endian read of a byte list as an unsigned integer
(`byteorder::NetworkEndian::read_uint`). -/
def beRead (l : List Nat) : Nat :=
  l.foldl (fun acc b => acc * 256 + b) 0

/-- Modelled from the spec: the XOR mask cipher `ws::mask::apply_mask`
(spec section 4.3): XOR each byte `i` of the buffer with key byte `i mod 4`.
The 4-byte key is kept as an opaque byte list. -/
def apply_mask (data : List Nat) (mask : List Nat) : List Nat :=
  data.mapIdx fun i b => b ^^^ mask.getD (i % 4) 0

/-- Modelled from the spec: the state of the incremental byte source
(`payload::PayloadHelper`, spec section 6): the currently buffered chunks,
plus whether the underlying stream has ended. -/
structure PayloadHelper : Type where
  chunks : List (List Nat)
  eof : Bool
deriving DecidableEq

/-- All buffered bytes of the source, in order. -/
def PayloadHelper.bytes (st : PayloadHelper) : List Nat :=
  st.chunks.flatten

/-- Modelled from the spec: `copy_exact(n)` (spec section 6) — copy at least
`n` leading bytes, coalescing across chunk boundaries, without consuming;
`Ready none` when the stream ended with fewer than `n` bytes, `NotReady`
when more bytes may still arrive. -/
def PayloadHelper.copy (st : PayloadHelper) (n : Nat) : Async (Option (List Nat)) :=
  if n ≤ st.bytes.length then .Ready (some (st.bytes.take n))
  else if st.eof then .Ready none
  else .NotReady

/-- Modelled from the spec: `has_at_least(n)` (spec section 6) — cheap
availability check without copying. -/
def PayloadHelper.can_read (st : PayloadHelper) (n : Nat) : Async (Option Bool) :=
  if n ≤ st.bytes.length then .Ready (some true)
  else if st.eof then .Ready none
  else .Ready (some false)

/-- Modelled from the spec: `consume_exact(n)` (spec section 6) — consume and
return exactly `n` bytes; `NotReady` when they are not yet buffered. -/
def PayloadHelper.read_exact (st : PayloadHelper) (n : Nat) : Async (Option (List Nat)) :=
  if n ≤ st.bytes.length then .Ready (some (st.bytes.take n))
  else if st.eof then .Ready none
  else .NotReady

/-- Modelled from the spec: `peek_contiguous()` (spec section 6) — the first
currently buffered contiguous chunk, without consuming it. -/
def PayloadHelper.get_chunk (st : PayloadHelper) : Async (Option (List Nat)) :=
  match st.chunks with
  | c :: _ => .Ready (some c)
  | [] => if st.eof then .Ready none else .NotReady

/-- Drop `n` leading bytes from a chunk list. -/
def dropBytes : Nat → List (List Nat) → List (List Nat)
  | _, [] => []
  | n, c :: cs => if c.length ≤ n then dropBytes (n - c.length) cs else c.drop n :: cs

/-- Modelled from the spec: `skip(n)` (spec section 6) — discard `n` leading
bytes already established to be buffered. -/
def PayloadHelper.drop_payload (st : PayloadHelper) (n : Nat) : PayloadHelper :=
  ⟨dropBytes n st.chunks, st.eof⟩

/-- Decoded header metadata: total header length `idx`, fin flag, opcode,
payload length, optional 4-byte mask key. -/
abbrev Hdr : Type := Nat × Bool × OpCode × Nat × Option (List Nat)

instance : DecidableEq Hdr := inferInstance

/-- Tail of `Frame::read_chunk_md` after the payload length is resolved:
the max-size check followed by the mask-key read (lines 177-195 of
`frame.rs`). -/
def Frame.finish_chunk_md (chunk : List Nat) (server : Bool) (max_size : Nat)
    (finished : Bool) (opcode : OpCode) (idx length : Nat) :
    Except ProtocolError (Async Hdr) :=
  if max_size < length then .error .Overflow
  else if server then
    if chunk.length < idx + 4 then .ok .NotReady
    else .ok (.Ready (idx + 4, finished, opcode, length, some ((chunk.drop idx).take 4)))
  else .ok (.Ready (idx, finished, opcode, length, none))

/-- `Frame::read_chunk_md`: decode the frame header from one contiguous
chunk (lines 129-196 of `frame.rs`). -/
def Frame.read_chunk_md (chunk : List Nat) (server : Bool) (max_size : Nat) :
    Except ProtocolError (Async Hdr) :=
  if chunk.length < 2 then .ok .NotReady
  else
    let first := chunk.getD 0 0
    let second := chunk.getD 1 0
    let finished := first &&& 0x80 != 0
    let masked := second &&& 0x80 != 0
    if !masked && server then .error .UnmaskedFrame
    else if masked && !server then .error .MaskedFrame
    else if OpCode.fromNibble (first &&& 0x0F) = .Bad then
      .error (.InvalidOpcode (first &&& 0x0F))
    else
      let len := second &&& 0x7F
      if len = 126 then
        if chunk.length < 4 then .ok .NotReady
        else Frame.finish_chunk_md chunk server max_size finished
          (OpCode.fromNibble (first &&& 0x0F)) 4 (beRead ((chunk.drop 2).take 2))
      else if len = 127 then
        if chunk.length < 10 then .ok .NotReady
        else Frame.finish_chunk_md chunk server max_size finished
          (OpCode.fromNibble (first &&& 0x0F)) 10 (beRead ((chunk.drop 2).take 8))
      else Frame.finish_chunk_md chunk server max_size finished
        (OpCode.fromNibble (first &&& 0x0F)) 2 len

/-- Tail of `Frame::read_copy_md` after the payload length is resolved:
the max-size check followed by the mask-key read (lines 106-126 of
`frame.rs`). -/
def Frame.finish_copy_md (st : PayloadHelper) (server : Bool) (max_size : Nat)
    (finished : Bool) (opcode : OpCode) (idx length : Nat) :
    Except ProtocolError (Async (Option Hdr)) :=
  if max_size < length then .error .Overflow
  else if server then
    match st.copy (idx + 4) with
    | .NotReady => .ok .NotReady
    | .Ready none => .ok (.Ready none)
    | .Ready (some buf) =>
      .ok (.Ready (some (idx + 4, finished, opcode, length, some ((buf.drop idx).take 4))))
  else .ok (.Ready (some (idx, finished, opcode, length, none)))

/-- `Frame::read_copy_md`: decode the frame header by copying the needed
bytes across chunk boundaries (lines 52-127 of `frame.rs`). -/
def Frame.read_copy_md (st : PayloadHelper) (server : Bool) (max_size : Nat) :
    Except ProtocolError (Async (Option Hdr)) :=
  match st.copy 2 with
  | .NotReady => .ok .NotReady
  | .Ready none => .ok (.Ready none)
  | .Ready (some buf) =>
    let first := buf.getD 0 0
    let second := buf.getD 1 0
    let finished := first &&& 0x80 != 0
    let masked := second &&& 0x80 != 0
    if !masked && server then .error .UnmaskedFrame
    else if masked && !server then .error .MaskedFrame
    else if OpCode.fromNibble (first &&& 0x0F) = .Bad then
      .error (.InvalidOpcode (first &&& 0x0F))
    else
      let len := second &&& 0x7F
      if len = 126 then
        match st.copy 4 with
        | .NotReady => .ok .NotReady
        | .Ready none => .ok (.Ready none)
        | .Ready (some buf2) =>
          Frame.finish_copy_md st server max_size finished
            (OpCode.fromNibble (first &&& 0x0F)) 4 (beRead ((buf2.drop 2).take 2))
      else if len = 127 then
        match st.copy 10 with
        | .NotReady => .ok .NotReady
        | .Ready none => .ok (.Ready none)
        | .Ready (some buf2) =>
          Frame.finish_copy_md st server max_size finished
            (OpCode.fromNibble (first &&& 0x0F)) 10 (beRead ((buf2.drop 2).take 8))
      else Frame.finish_copy_md st server max_size finished
        (OpCode.fromNibble (first &&& 0x0F)) 2 len

/-- Header phase of `Frame::parse` (lines 203-218 of `frame.rs`): try the
contiguous fast path on the first chunk, fall back to the copying path. -/
def Frame.parse_md (st : PayloadHelper) (server : Bool) (max_size : Nat) :
    Except ProtocolError (Async (Option Hdr)) :=
  match st.get_chunk with
  | .NotReady => .ok .NotReady
  | .Ready none => .ok (.Ready none)
  | .Ready (some chunk) =>
    match Frame.read_chunk_md chunk server max_size with
    | .error e => .error e
    | .ok (.Ready item) => .ok (.Ready (some item))
    | .ok .NotReady => Frame.read_copy_md st server max_size

/-- Body of `Frame::parse` after the header is decoded (lines 220-262 of
`frame.rs`): availability check, header drop, exact payload read, the
control-frame policy, and unmasking.  The `panic!` branch is `none`. -/
def Frame.parse_body (st : PayloadHelper) (hdr : Hdr) :
    Option (Except ProtocolError (Async (Option Frame))) :=
  match hdr with
  | (idx, finished, opcode, length, mask) =>
    match st.can_read (idx + length) with
    | .Ready (some true) =>
      let st2 := st.drop_payload idx
      if length = 0 then some (.ok (.Ready (some ⟨finished, opcode, []⟩)))
      else
        match st2.read_exact length with
        | .Ready (some data) =>
          if (opcode = .Ping ∨ opcode = .Pong) ∧ 125 < length then
            some (.error (.InvalidLength length))
          else if opcode = .Close ∧ 125 < length then
            some (.ok (.Ready (some Frame.default)))
          else
            match mask with
            | some m => some (.ok (.Ready (some ⟨finished, opcode, apply_mask data m⟩)))
            | none => some (.ok (.Ready (some ⟨finished, opcode, data⟩)))
        | .Ready none => some (.ok (.Ready none))
        | .NotReady => none
    | .Ready none => some (.ok (.Ready none))
    | .Ready (some false) => some (.ok .NotReady)
    | .NotReady => some (.ok .NotReady)

/-- `Frame::parse` (lines 199-262 of `frame.rs`).  Returns `none` exactly
when the source `panic!` would fire. -/
def Frame.parse (st : PayloadHelper) (server : Bool) (max_size : Nat) :
    Option (Except ProtocolError (Async (Option Frame))) :=
  match Frame.parse_md st server max_size with
  | .error e => some (.error e)
  | .ok .NotReady => some (.ok .NotReady)
  | .ok (.Ready none) => some (.ok (.Ready none))
  | .ok (.Ready (some hdr)) => Frame.parse_body st hdr

/-- `Frame::message` (lines 265-321 of `frame.rs`): serialize a payload,
opcode, fin flag and optional masking request into wire bytes.  `rnd`
stands for the process randomness (`rand::random::<u32>()`), given as the
4 opaque mask-key bytes; it is unused when `genmask` is false. -/
def Frame.message (rnd : List Nat) (data : List Nat) (code : OpCode)
    (finished : Bool) (genmask : Bool) : List Nat :=
  let one := if finished then 0x80 ||| code.toByte else code.toByte
  let payload_len := data.length
  let two : Nat := if genmask then 0x80 else 0
  let buf :=
    if payload_len < 126 then [one, two ||| payload_len]
    else if payload_len ≤ 65535 then [one, two ||| 126] ++ beBytes 2 payload_len
    else [one, two ||| 127] ++ beBytes 8 payload_len
  if genmask then buf ++ rnd.take 4 ++ apply_mask data (rnd.take 4)
  else buf ++ data

/-- `Frame::close` (lines 32-49 of `frame.rs`): build a Close control frame
from a close code and a reason (given as its UTF-8 bytes). -/
def Frame.close (rnd : List Nat) (code : CloseCode) (reason : List Nat)
    (genmask : Bool) : List Nat :=
  let raw := beBytes 2 code.toU16
  let payload := if code = .Empty then [] else raw ++ reason
  Frame.message rnd payload .Close true genmask

/-- The unmasked header bytes `Frame::message` produces for a given fin
flag, opcode and payload length. -/
def mkHeader (fin : Bool) (code : OpCode) (n : Nat) : List Nat :=
  let one := if fin then 0x80 ||| code.toByte else code.toByte
  if n < 126 then [one, n]
  else if n ≤ 65535 then [one, 126] ++ beBytes 2 n
  else [one, 127] ++ beBytes 8 n

/-- Header byte count for a payload length: 2, 4, or 10. -/
def headerLen (n : Nat) : Nat :=
  if n < 126 then 2 else if n ≤ 65535 then 4 else 10

/-- Relation between the two header paths: the copying path returns exactly
what the contiguous path returns on the flattened bytes, with the
contiguous path's `NotReady` refined by the end-of-stream flag. -/
def liftMd (e : Bool) : Except ProtocolError (Async Hdr) →
    Except ProtocolError (Async (Option Hdr))
  | .error err => .error err
  | .ok (.Ready r) => .ok (.Ready (some r))
  | .ok .NotReady => if e then .ok (.Ready none) else .ok .NotReady

instance {ε α : Type} [DecidableEq ε] [DecidableEq α] : DecidableEq (Except ε α) := fun x y =>
  match x, y with
  | .ok a, .ok b =>
    if h : a = b then .isTrue (by rw [h]) else .isFalse (by simp [h])
  | .error a, .error b =>
    if h : a = b then .isTrue (by rw [h]) else .isFalse (by simp [h])
  | .ok _, .error _ => .isFalse (by simp)
  | .error _, .ok _ => .isFalse (by simp)

example : Frame.message [] [49] .Text false false = [1, 1, 49] := by decide

example : Frame.message [] [100, 97, 116, 97] .Ping true false
    = [137, 4, 100, 97, 116, 97] := by decide

example : Frame.close [] .Normal [100, 97, 116, 97] false
    = [136, 6, 3, 232, 100, 97, 116, 97] := by decide


section Helpers

lemma and128_of_lt {a : Nat} (h : a < 128) : a &&& 128 = 0 := by
  have h7 : (128 : Nat) = 2 ^ 7 := by norm_num
  rw [h7, Nat.and_two_pow, Nat.testBit_eq_false_of_lt (by omega)]
  simp

lemma and127_of_lt {a : Nat} (h : a < 128) : a &&& 127 = a := by
  have h7 : (127 : Nat) = 2 ^ 7 - 1 := by norm_num
  rw [h7, Nat.and_pow_two_sub_one_eq_mod]
  omega

lemma add128_and128 {a : Nat} (h : a < 128) : (128 + a) &&& 128 = 128 := by
  have h7 : (128 : Nat) = 2 ^ 7 := by norm_num
  rw [h7, Nat.and_two_pow]
  rw [show (2 ^ 7 + a : Nat) = 2 ^ 7 + a from rfl, Nat.testBit_two_pow_add_eq,
    Nat.testBit_eq_false_of_lt (by omega)]
  simp

lemma add128_and127 {a : Nat} (h : a < 128) : (128 + a) &&& 127 = a := by
  have h7 : (127 : Nat) = 2 ^ 7 - 1 := by norm_num
  rw [h7, Nat.and_pow_two_sub_one_eq_mod]
  omega

lemma beBytes_length (k v : Nat) : (beBytes k v).length = k := by
  induction k generalizing v with
  | zero => simp [beBytes]
  | succ k ih => simp [beBytes, ih]

lemma beRead_append_one (l : List Nat) (b : Nat) :
    beRead (l ++ [b]) = beRead l * 256 + b := by
  simp [beRead, List.foldl_append]

lemma beRead_beBytes (k v : Nat) : beRead (beBytes k v) = v % 256 ^ k := by
  induction k generalizing v with
  | zero => simp [beBytes, beRead, Nat.mod_one]
  | succ k ih =>
    rw [beBytes, beRead_append_one, ih]
    have h256 : (256 : Nat) ^ (k + 1) = 256 * 256 ^ k := by ring
    rw [h256, Nat.mod_mul]
    omega

lemma getD_take {l : List Nat} {n i d : Nat} (h : i < n) :
    (l.take n).getD i d = l.getD i d := by
  simp [List.getD_eq_getElem?_getD, List.getElem?_take_of_lt h]

lemma getD_append_left {l r : List Nat} {i d : Nat} (h : i < l.length) :
    (l ++ r).getD i d = l.getD i d := by
  simp [List.getD_eq_getElem?_getD, List.getElem?_append_left h]

lemma flatten_dropBytes (n : Nat) (cs : List (List Nat)) :
    (dropBytes n cs).flatten = cs.flatten.drop n := by
  induction cs generalizing n with
  | nil => simp [dropBytes]
  | cons c cs ih =>
    rw [dropBytes]
    by_cases h : c.length ≤ n
    · rw [if_pos h]
      rw [ih, List.flatten_cons, List.drop_append_eq_append_drop,
        List.drop_eq_nil_of_le h]
      simp
    · rw [if_neg h, List.flatten_cons, List.flatten_cons,
        List.drop_append_of_le_length (by omega)]

lemma drop_payload_bytes (st : PayloadHelper) (n : Nat) :
    (st.drop_payload n).bytes = st.bytes.drop n := by
  simp [PayloadHelper.drop_payload, PayloadHelper.bytes, flatten_dropBytes]

lemma drop_payload_eof (st : PayloadHelper) (n : Nat) :
    (st.drop_payload n).eof = st.eof := rfl

lemma bytes_single (bs : List Nat) (e : Bool) :
    (⟨[bs], e⟩ : PayloadHelper).bytes = bs := by
  simp [PayloadHelper.bytes]

lemma mkHeader_length (fin : Bool) (code : OpCode) (n : Nat) :
    (mkHeader fin code n).length = headerLen n := by
  rw [mkHeader, headerLen]
  by_cases h1 : n < 126
  · simp [h1]
  · by_cases h2 : n ≤ 65535 <;> simp [h1, h2, beBytes_length]

lemma message_unmasked (rnd data : List Nat) (code : OpCode) (fin : Bool) :
    Frame.message rnd data code fin false = mkHeader fin code data.length ++ data := by
  rw [Frame.message, mkHeader]
  simp only [if_neg Bool.false_ne_true, Bool.false_eq_true, if_false]
  by_cases h1 : data.length < 126
  · simp [h1, Nat.zero_or]
  · by_cases h2 : data.length ≤ 65535 <;> simp [h1, h2, Nat.zero_or]

lemma firstByte_and128 (fin : Bool) (code : OpCode) :
    (((if fin then 0x80 ||| code.toByte else code.toByte) &&& 0x80 != 0) : Bool) = fin := by
  cases fin <;> cases code <;> decide

lemma firstByte_nibble (fin : Bool) (code : OpCode) (h : code ≠ .Bad) :
    OpCode.fromNibble ((if fin then 0x80 ||| code.toByte else code.toByte) &&& 0x0F) = code := by
  cases fin <;> cases code <;> first | decide | exact absurd rfl h

end Helpers

section DecodeLemmas

lemma read_chunk_md_small (one n : Nat) (rest : List Nat) (ms : Nat)
    (hn : n < 126)
    (hbad : OpCode.fromNibble (one &&& 0x0F) ≠ .Bad) :
    Frame.read_chunk_md (one :: n :: rest) false ms =
      if ms < n then .error .Overflow
      else .ok (.Ready (2, one &&& 0x80 != 0, OpCode.fromNibble (one &&& 0x0F), n, none)) := by
  simp only [Frame.read_chunk_md, Frame.finish_chunk_md, List.length_cons,
    List.getD_cons_zero, List.getD_cons_succ]
  rw [if_neg (by omega)]
  rw [and128_of_lt (show n < 128 by omega), and127_of_lt (show n < 128 by omega)]
  simp only [bne_self_eq_false, Bool.and_false, Bool.false_and, Bool.not_false,
    Bool.false_eq_true, if_false]
  rw [if_neg hbad, if_neg (by omega : ¬n = 126), if_neg (by omega : ¬n = 127)]


lemma read_chunk_md_ext2 (one L : Nat) (rest : List Nat) (ms : Nat)
    (hL : L ≤ 65535)
    (hbad : OpCode.fromNibble (one &&& 0x0F) ≠ .Bad) :
    Frame.read_chunk_md (one :: 126 :: (beBytes 2 L ++ rest)) false ms =
      if ms < L then .error .Overflow
      else .ok (.Ready (4, one &&& 0x80 != 0, OpCode.fromNibble (one &&& 0x0F), L, none)) := by
  simp only [Frame.read_chunk_md, Frame.finish_chunk_md, List.length_cons,
    List.getD_cons_zero, List.getD_cons_succ]
  rw [if_neg (by omega)]
  rw [show (126 : Nat) &&& 0x80 = 0 by decide, show (126 : Nat) &&& 0x7F = 126 by decide]
  simp only [bne_self_eq_false, Bool.and_false, Bool.false_and, Bool.not_false,
    Bool.false_eq_true, if_false]
  rw [if_neg hbad, if_pos trivial]
  rw [if_neg (show ¬((beBytes 2 L ++ rest).length + 1 + 1 < 4) from by
    simp only [List.length_append, beBytes_length]; omega)]
  have hdrop : (one :: 126 :: (beBytes 2 L ++ rest)).drop 2 = beBytes 2 L ++ rest := rfl
  rw [hdrop, List.take_left' (beBytes_length 2 L), beRead_beBytes]
  rw [Nat.mod_eq_of_lt (by omega : L < 256 ^ 2)]

lemma read_chunk_md_ext8 (one L : Nat) (rest : List Nat) (ms : Nat)
    (hL : L < 2 ^ 64)
    (hbad : OpCode.fromNibble (one &&& 0x0F) ≠ .Bad) :
    Frame.read_chunk_md (one :: 127 :: (beBytes 8 L ++ rest)) false ms =
      if ms < L then .error .Overflow
      else .ok (.Ready (10, one &&& 0x80 != 0, OpCode.fromNibble (one &&& 0x0F), L, none)) := by
  simp only [Frame.read_chunk_md, Frame.finish_chunk_md, List.length_cons,
    List.getD_cons_zero, List.getD_cons_succ]
  rw [if_neg (by omega)]
  rw [show (127 : Nat) &&& 0x80 = 0 by decide, show (127 : Nat) &&& 0x7F = 127 by decide]
  simp only [bne_self_eq_false, Bool.and_false, Bool.false_and, Bool.not_false,
    Bool.false_eq_true, if_false]
  rw [if_neg hbad, if_neg (show ¬((127 : Nat) = 126) from by omega), if_pos trivial]
  rw [if_neg (show ¬((beBytes 8 L ++ rest).length + 1 + 1 < 10) from by
    simp only [List.length_append, beBytes_length]; omega)]
  have hdrop : (one :: 127 :: (beBytes 8 L ++ rest)).drop 2 = beBytes 8 L ++ rest := rfl
  rw [hdrop, List.take_left' (beBytes_length 8 L), beRead_beBytes]
  rw [Nat.mod_eq_of_lt (by omega : L < 256 ^ 8)]

lemma read_chunk_md_mkHeader (fin : Bool) (code : OpCode) (n : Nat) (rest : List Nat)
    (ms : Nat) (hcode : code ≠ .Bad) (h64 : n < 2 ^ 64) :
    Frame.read_chunk_md (mkHeader fin code n ++ rest) false ms =
      if ms < n then .error .Overflow
      else .ok (.Ready (headerLen n, fin, code, n, none)) := by
  have hbad : OpCode.fromNibble
      ((if fin then 0x80 ||| code.toByte else code.toByte) &&& 0x0F) ≠ .Bad := by
    rw [firstByte_nibble fin code hcode]; exact hcode
  rw [mkHeader, headerLen]
  by_cases h1 : n < 126
  · rw [if_pos h1, if_pos h1]
    have : ([if fin then 0x80 ||| code.toByte else code.toByte, n] : List Nat) ++ rest
        = (if fin then 0x80 ||| code.toByte else code.toByte) :: n :: rest := rfl
    rw [this, read_chunk_md_small _ n rest ms h1 hbad,
      firstByte_and128 fin code, firstByte_nibble fin code hcode]
  · rw [if_neg h1, if_neg h1]
    by_cases h2 : n ≤ 65535
    · rw [if_pos h2, if_pos h2]
      have : (([if fin then 0x80 ||| code.toByte else code.toByte, 126] : List Nat)
          ++ beBytes 2 n) ++ rest
          = (if fin then 0x80 ||| code.toByte else code.toByte)
            :: 126 :: (beBytes 2 n ++ rest) := by simp
      rw [this, read_chunk_md_ext2 _ n rest ms h2 hbad,
        firstByte_and128 fin code, firstByte_nibble fin code hcode]
    · rw [if_neg h2, if_neg h2]
      have : (([if fin then 0x80 ||| code.toByte else code.toByte, 127] : List Nat)
          ++ beBytes 8 n) ++ rest
          = (if fin then 0x80 ||| code.toByte else code.toByte)
            :: 127 :: (beBytes 8 n ++ rest) := by simp
      rw [this, read_chunk_md_ext8 _ n rest ms h64 hbad,
        firstByte_and128 fin code, firstByte_nibble fin code hcode]


lemma parse_body_complete (st : PayloadHelper) (idx n : Nat) (fin : Bool)
    (code : OpCode) (havail : idx + n ≤ st.bytes.length) :
    Frame.parse_body st (idx, fin, code, n, none) =
      if n = 0 then some (.ok (.Ready (some ⟨fin, code, []⟩)))
      else if (code = .Ping ∨ code = .Pong) ∧ 125 < n then
        some (.error (.InvalidLength n))
      else if code = .Close ∧ 125 < n then some (.ok (.Ready (some Frame.default)))
      else some (.ok (.Ready (some ⟨fin, code, (st.bytes.drop idx).take n⟩))) := by
  have h1 : st.can_read (idx + n) = .Ready (some true) := by
    simp [PayloadHelper.can_read, havail]
  have h2 : (st.drop_payload idx).read_exact n
      = .Ready (some ((st.bytes.drop idx).take n)) := by
    rw [PayloadHelper.read_exact, drop_payload_bytes,
      if_pos (by simp [List.length_drop]; omega)]
  simp only [Frame.parse_body, h1, h2]

lemma parse_mkHeader (fin : Bool) (code : OpCode) (n : Nat) (payload : List Nat)
    (ms : Nat) (e : Bool) (hcode : code ≠ .Bad) (h64 : n < 2 ^ 64) (hms : n ≤ ms)
    (hlen : payload.length = n) :
    Frame.parse ⟨[mkHeader fin code n ++ payload], e⟩ false ms =
      if (code = .Ping ∨ code = .Pong) ∧ 125 < n then some (.error (.InvalidLength n))
      else if code = .Close ∧ 125 < n then some (.ok (.Ready (some Frame.default)))
      else some (.ok (.Ready (some ⟨fin, code, payload⟩))) := by
  have hbytes : (⟨[mkHeader fin code n ++ payload], e⟩ : PayloadHelper).bytes
      = mkHeader fin code n ++ payload := by
    simp [PayloadHelper.bytes]
  have hchunk : (⟨[mkHeader fin code n ++ payload], e⟩ : PayloadHelper).get_chunk
      = .Ready (some (mkHeader fin code n ++ payload)) := rfl
  have hmd : Frame.parse_md ⟨[mkHeader fin code n ++ payload], e⟩ false ms
      = .ok (.Ready (some (headerLen n, fin, code, n, none))) := by
    simp only [Frame.parse_md, hchunk,
      read_chunk_md_mkHeader fin code n payload ms hcode h64,
      if_neg (show ¬ms < n by omega)]
  simp only [Frame.parse, hmd]
  rw [parse_body_complete _ (headerLen n) n fin code
    (by rw [hbytes]; simp [mkHeader_length, hlen])]
  rw [hbytes, List.drop_left' (mkHeader_length fin code n)]
  by_cases hn : n = 0
  · subst hn
    rw [if_pos rfl, if_neg (by omega : ¬((code = .Ping ∨ code = .Pong) ∧ 125 < 0)),
      if_neg (by omega : ¬(code = .Close ∧ 125 < 0))]
    have : payload = [] := List.eq_nil_of_length_eq_zero hlen
    rw [this]
  · rw [if_neg hn, show payload.take n = payload from by
      rw [← hlen]; exact List.take_length payload]


lemma finish_copy_md_eq (st : PayloadHelper) (server : Bool) (ms : Nat)
    (fin : Bool) (code : OpCode) (idx L : Nat) :
    Frame.finish_copy_md st server ms fin code idx L
      = liftMd st.eof (Frame.finish_chunk_md st.bytes server ms fin code idx L) := by
  by_cases hov : ms < L
  · have hc : Frame.finish_chunk_md st.bytes server ms fin code idx L
        = .error .Overflow := by
      rw [Frame.finish_chunk_md, if_pos hov]
    rw [Frame.finish_copy_md, if_pos hov, hc, liftMd]
  · cases server with
    | false =>
      have hc : Frame.finish_chunk_md st.bytes false ms fin code idx L
          = .ok (.Ready (idx, fin, code, L, none)) := by
        simp [Frame.finish_chunk_md, hov]
      rw [Frame.finish_copy_md, if_neg hov, hc]
      simp [liftMd]
    | true =>
      by_cases hmask : idx + 4 ≤ st.bytes.length
      · have hc : Frame.finish_chunk_md st.bytes true ms fin code idx L
            = .ok (.Ready (idx + 4, fin, code, L,
                some ((st.bytes.drop idx).take 4))) := by
          simp [Frame.finish_chunk_md, hov, show ¬st.bytes.length < idx + 4 by omega]
        have hcopy : st.copy (idx + 4) = .Ready (some (st.bytes.take (idx + 4))) := by
          rw [PayloadHelper.copy, if_pos hmask]
        have hsl : ((st.bytes.take (idx + 4)).drop idx).take 4
            = (st.bytes.drop idx).take 4 := by
          rw [List.drop_take, show idx + 4 - idx = 4 by omega, List.take_take]
          simp
        rw [Frame.finish_copy_md, if_neg hov, hc]
        simp [hcopy, hsl, liftMd]
      · have hc : Frame.finish_chunk_md st.bytes true ms fin code idx L
            = .ok .NotReady := by
          simp [Frame.finish_chunk_md, hov, show st.bytes.length < idx + 4 by omega]
        have hcopy : st.copy (idx + 4)
            = if st.eof then .Ready none else .NotReady := by
          rw [PayloadHelper.copy, if_neg (by omega)]
        rw [Frame.finish_copy_md, if_neg hov, hc]
        simp only [hcopy, liftMd]
        cases he : st.eof <;> simp


lemma read_copy_md_eq (st : PayloadHelper) (server : Bool) (ms : Nat) :
    Frame.read_copy_md st server ms
      = liftMd st.eof (Frame.read_chunk_md st.bytes server ms) := by
  by_cases h2 : 2 ≤ st.bytes.length
  · have hcopy2 : st.copy 2 = .Ready (some (st.bytes.take 2)) := by
      rw [PayloadHelper.copy, if_pos h2]
    have hg0 : (st.bytes.take 2).getD 0 0 = st.bytes.getD 0 0 := getD_take (by omega)
    have hg1 : (st.bytes.take 2).getD 1 0 = st.bytes.getD 1 0 := getD_take (by omega)
    rw [Frame.read_copy_md, Frame.read_chunk_md,
      if_neg (show ¬st.bytes.length < 2 by omega)]
    simp only [hcopy2, hg0, hg1]
    by_cases hm1 : (!(st.bytes.getD 1 0 &&& 0x80 != 0) && server) = true
    · rw [if_pos hm1, if_pos hm1, liftMd]
    · rw [if_neg hm1, if_neg hm1]
      by_cases hm2 : ((st.bytes.getD 1 0 &&& 0x80 != 0) && !server) = true
      · rw [if_pos hm2, if_pos hm2, liftMd]
      · rw [if_neg hm2, if_neg hm2]
        by_cases hbad : OpCode.fromNibble (st.bytes.getD 0 0 &&& 0x0F) = .Bad
        · rw [if_pos hbad, if_pos hbad, liftMd]
        · rw [if_neg hbad, if_neg hbad]
          by_cases hl6 : (st.bytes.getD 1 0 &&& 0x7F) = 126
          · rw [if_pos hl6, if_pos hl6]
            by_cases h4 : 4 ≤ st.bytes.length
            · have hcopy4 : st.copy 4 = .Ready (some (st.bytes.take 4)) := by
                rw [PayloadHelper.copy, if_pos h4]
              have hsl : ((st.bytes.take 4).drop 2).take 2
                  = (st.bytes.drop 2).take 2 := by
                rw [List.drop_take, show (4 : Nat) - 2 = 2 by omega, List.take_take]
                simp
              rw [if_neg (show ¬st.bytes.length < 4 by omega)]
              simp only [hcopy4, hsl]
              exact finish_copy_md_eq st server ms _ _ 4 _
            · have hcopy4 : st.copy 4
                  = if st.eof then .Ready none else .NotReady := by
                rw [PayloadHelper.copy, if_neg (by omega)]
              rw [if_pos (show st.bytes.length < 4 by omega)]
              simp only [hcopy4]
              cases he : st.eof <;> simp [liftMd]
          · rw [if_neg hl6, if_neg hl6]
            by_cases hl7 : (st.bytes.getD 1 0 &&& 0x7F) = 127
            · rw [if_pos hl7, if_pos hl7]
              by_cases h10 : 10 ≤ st.bytes.length
              · have hcopy10 : st.copy 10 = .Ready (some (st.bytes.take 10)) := by
                  rw [PayloadHelper.copy, if_pos h10]
                have hsl : ((st.bytes.take 10).drop 2).take 8
                    = (st.bytes.drop 2).take 8 := by
                  rw [List.drop_take, show (10 : Nat) - 2 = 8 by omega, List.take_take]
                  simp
                rw [if_neg (show ¬st.bytes.length < 10 by omega)]
                simp only [hcopy10, hsl]
                exact finish_copy_md_eq st server ms _ _ 10 _
              · have hcopy10 : st.copy 10
                    = if st.eof then .Ready none else .NotReady := by
                  rw [PayloadHelper.copy, if_neg (by omega)]
                rw [if_pos (show st.bytes.length < 10 by omega)]
                simp only [hcopy10]
                cases he : st.eof <;> simp [liftMd]
            · rw [if_neg hl7, if_neg hl7]
              exact finish_copy_md_eq st server ms _ _ 2 _
  · have hcopy : st.copy 2 = if st.eof then .Ready none else .NotReady := by
      rw [PayloadHelper.copy, if_neg (by omega)]
    rw [Frame.read_copy_md, Frame.read_chunk_md,
      if_pos (show st.bytes.length < 2 by omega)]
    simp only [hcopy]
    cases he : st.eof <;> simp [liftMd]


lemma finish_chunk_md_append (c t : List Nat) (server : Bool) (ms : Nat)
    (fin : Bool) (code : OpCode) (idx L : Nat)
    (h : Frame.finish_chunk_md c server ms fin code idx L ≠ .ok .NotReady) :
    Frame.finish_chunk_md (c ++ t) server ms fin code idx L
      = Frame.finish_chunk_md c server ms fin code idx L := by
  by_cases hov : ms < L
  · rw [Frame.finish_chunk_md, Frame.finish_chunk_md, if_pos hov, if_pos hov]
  · cases server with
    | false => simp [Frame.finish_chunk_md, hov]
    | true =>
      by_cases hm : c.length < idx + 4
      · exact absurd (by simp [Frame.finish_chunk_md, hov, hm]) h
      · have hsl : ((c ++ t).drop idx).take 4 = (c.drop idx).take 4 := by
          rw [List.drop_append_of_le_length (by omega), List.take_append_of_le_length]
          simp [List.length_drop]
          omega
        have hlen2 : ¬(c ++ t).length < idx + 4 := by
          simp only [List.length_append]
          omega
        simp [Frame.finish_chunk_md, hov, hm, hsl, hlen2]
        omega

lemma read_chunk_md_append (c t : List Nat) (server : Bool) (ms : Nat)
    (h : Frame.read_chunk_md c server ms ≠ .ok .NotReady) :
    Frame.read_chunk_md (c ++ t) server ms = Frame.read_chunk_md c server ms := by
  by_cases h2 : c.length < 2
  · exact absurd (by rw [Frame.read_chunk_md, if_pos h2]) h
  · have hg0 : (c ++ t).getD 0 0 = c.getD 0 0 := getD_append_left (by omega)
    have hg1 : (c ++ t).getD 1 0 = c.getD 1 0 := getD_append_left (by omega)
    rw [Frame.read_chunk_md, Frame.read_chunk_md, if_neg h2,
      if_neg (show ¬(c ++ t).length < 2 by simp [List.length_append]; omega)]
    simp only [hg0, hg1]
    by_cases hm1 : (!(c.getD 1 0 &&& 0x80 != 0) && server) = true
    · rw [if_pos hm1, if_pos hm1]
    · rw [if_neg hm1, if_neg hm1]
      by_cases hm2 : ((c.getD 1 0 &&& 0x80 != 0) && !server) = true
      · rw [if_pos hm2, if_pos hm2]
      · rw [if_neg hm2, if_neg hm2]
        by_cases hbad : OpCode.fromNibble (c.getD 0 0 &&& 0x0F) = .Bad
        · rw [if_pos hbad, if_pos hbad]
        · rw [if_neg hbad, if_neg hbad]
          have hnrc : ∀ fin code idx L,
              Frame.finish_chunk_md c server ms fin code idx L ≠ .ok .NotReady →
              Frame.finish_chunk_md (c ++ t) server ms fin code idx L
                = Frame.finish_chunk_md c server ms fin code idx L :=
            fun fin code idx L hh => finish_chunk_md_append c t server ms fin code idx L hh
          by_cases hl6 : (c.getD 1 0 &&& 0x7F) = 126
          · rw [if_pos hl6, if_pos hl6]
            by_cases h4 : c.length < 4
            · exact absurd (by
                rw [Frame.read_chunk_md, if_neg h2]
                simp only [hg0, hg1]  -- not needed on c itself
                rw [if_neg hm1, if_neg hm2, if_neg hbad, if_pos hl6, if_pos h4]) h
            · have hsl : ((c ++ t).drop 2).take 2 = (c.drop 2).take 2 := by
                rw [List.drop_append_of_le_length (by omega),
                  List.take_append_of_le_length]
                simp [List.length_drop]
                omega
              rw [if_neg (show ¬(c ++ t).length < 4 by simp [List.length_append]; omega),
                if_neg h4, hsl]
              apply finish_chunk_md_append
              intro hcon
              apply h
              rw [Frame.read_chunk_md, if_neg h2]
              rw [if_neg hm1, if_neg hm2, if_neg hbad, if_pos hl6, if_neg h4]
              exact hcon
          · rw [if_neg hl6, if_neg hl6]
            by_cases hl7 : (c.getD 1 0 &&& 0x7F) = 127
            · rw [if_pos hl7, if_pos hl7]
              by_cases h10 : c.length < 10
              · exact absurd (by
                  rw [Frame.read_chunk_md, if_neg h2]
                  rw [if_neg hm1, if_neg hm2, if_neg hbad, if_neg hl6, if_pos hl7,
                    if_pos h10]) h
              · have hsl : ((c ++ t).drop 2).take 8 = (c.drop 2).take 8 := by
                  rw [List.drop_append_of_le_length (by omega),
                    List.take_append_of_le_length]
                  simp [List.length_drop]
                  omega
                rw [if_neg (show ¬(c ++ t).length < 10 by
                    simp [List.length_append]; omega),
                  if_neg h10, hsl]
                apply finish_chunk_md_append
                intro hcon
                apply h
                rw [Frame.read_chunk_md, if_neg h2]
                rw [if_neg hm1, if_neg hm2, if_neg hbad, if_neg hl6, if_pos hl7,
                  if_neg h10]
                exact hcon
            · rw [if_neg hl7, if_neg hl7]
              apply finish_chunk_md_append
              intro hcon
              apply h
              rw [Frame.read_chunk_md, if_neg h2]
              rw [if_neg hm1, if_neg hm2, if_neg hbad, if_neg hl6, if_neg hl7]
              exact hcon

lemma parse_body_congr (st st' : PayloadHelper) (hdr : Hdr)
    (hb : st.bytes = st'.bytes) (he : st.eof = st'.eof) :
    Frame.parse_body st hdr = Frame.parse_body st' hdr := by
  obtain ⟨idx, fin, code, len, mask⟩ := hdr
  have hcr : st.can_read (idx + len) = st'.can_read (idx + len) := by
    rw [PayloadHelper.can_read, PayloadHelper.can_read, hb, he]
  have hre : (st.drop_payload idx).read_exact len
      = (st'.drop_payload idx).read_exact len := by
    rw [PayloadHelper.read_exact, PayloadHelper.read_exact, drop_payload_bytes,
      drop_payload_bytes, drop_payload_eof, drop_payload_eof, hb, he]
  simp only [Frame.parse_body, hcr, hre]


lemma parse_eq_flatten (cs : List (List Nat)) (e : Bool) (server : Bool) (ms : Nat) :
    Frame.parse ⟨cs, e⟩ server ms = Frame.parse ⟨[cs.flatten], e⟩ server ms := by
  cases cs with
  | nil => cases e <;> rfl
  | cons c cs' =>
    rw [List.flatten_cons]
    have hb1 : (⟨c :: cs', e⟩ : PayloadHelper).bytes = c ++ cs'.flatten := by
      simp [PayloadHelper.bytes]
    have hb2 : (⟨[c ++ cs'.flatten], e⟩ : PayloadHelper).bytes = c ++ cs'.flatten := by
      simp [PayloadHelper.bytes]
    have hcongr : ∀ hdr : Hdr, Frame.parse_body ⟨c :: cs', e⟩ hdr
        = Frame.parse_body ⟨[c ++ cs'.flatten], e⟩ hdr := by
      intro hdr
      exact parse_body_congr _ _ hdr (by rw [hb1, hb2]) rfl
    have hgc1 : (⟨c :: cs', e⟩ : PayloadHelper).get_chunk = .Ready (some c) := rfl
    have hgc2 : (⟨[c ++ cs'.flatten], e⟩ : PayloadHelper).get_chunk
        = .Ready (some (c ++ cs'.flatten)) := rfl
    have hcopy1 : Frame.read_copy_md ⟨c :: cs', e⟩ server ms
        = liftMd e (Frame.read_chunk_md (c ++ cs'.flatten) server ms) := by
      rw [read_copy_md_eq, hb1]
    have hcopy2 : Frame.read_copy_md ⟨[c ++ cs'.flatten], e⟩ server ms
        = liftMd e (Frame.read_chunk_md (c ++ cs'.flatten) server ms) := by
      rw [read_copy_md_eq, hb2]
    by_cases hnr : Frame.read_chunk_md c server ms = .ok .NotReady
    · rcases hflat : Frame.read_chunk_md (c ++ cs'.flatten) server ms with e0 | a
      · simp only [Frame.parse, Frame.parse_md, hgc1, hgc2, hnr, hflat, hcopy1,
          hcopy2, liftMd]
      · cases a with
        | Ready r =>
          simp only [Frame.parse, Frame.parse_md, hgc1, hgc2, hnr, hflat, hcopy1,
            hcopy2, liftMd]
          exact hcongr r
        | NotReady =>
          simp only [Frame.parse, Frame.parse_md, hgc1, hgc2, hnr, hflat, hcopy1,
            hcopy2, liftMd]
          cases e <;> simp
    · have happ := read_chunk_md_append c cs'.flatten server ms hnr
      rcases hc : Frame.read_chunk_md c server ms with e0 | a
      · rw [hc] at happ
        simp only [Frame.parse, Frame.parse_md, hgc1, hgc2, hc, happ]
      · cases a with
        | Ready r =>
          rw [hc] at happ
          simp only [Frame.parse, Frame.parse_md, hgc1, hgc2, hc, happ]
          exact hcongr r
        | NotReady => exact absurd hc hnr


lemma parse_body_ne_none (st : PayloadHelper) (hdr : Hdr) :
    Frame.parse_body st hdr ≠ none := by
  obtain ⟨idx, fin, code, len, mask⟩ := hdr
  by_cases hav : idx + len ≤ st.bytes.length
  · have h1 : st.can_read (idx + len) = .Ready (some true) := by
      simp [PayloadHelper.can_read, hav]
    have h2 : (st.drop_payload idx).read_exact len
        = .Ready (some ((st.bytes.drop idx).take len)) := by
      rw [PayloadHelper.read_exact, drop_payload_bytes,
        if_pos (by simp [List.length_drop]; omega)]
    simp only [Frame.parse_body, h1, h2]
    by_cases hz : len = 0
    · simp [hz]
    · rw [if_neg hz]
      split_ifs <;> try simp
      cases mask <;> simp
  · by_cases he : st.eof
    · have h1 : st.can_read (idx + len) = .Ready none := by
        simp [PayloadHelper.can_read, hav, he]
      simp only [Frame.parse_body, h1]
      simp
    · have h1 : st.can_read (idx + len) = .Ready (some false) := by
        simp [PayloadHelper.can_read, hav, he]
      simp only [Frame.parse_body, h1]
      simp

lemma finish_chunk_md_opcode {c : List Nat} {server : Bool} {ms : Nat} {f : Bool}
    {oc : OpCode} {i L idx : Nat} {fin : Bool} {code : OpCode} {len : Nat}
    {mask : Option (List Nat)}
    (h : Frame.finish_chunk_md c server ms f oc i L
      = .ok (.Ready (idx, fin, code, len, mask))) :
    code = oc := by
  rw [Frame.finish_chunk_md] at h
  split_ifs at h <;> simp_all

lemma read_chunk_md_opcode {chunk : List Nat} {server : Bool} {ms : Nat}
    {idx : Nat} {fin : Bool} {code : OpCode} {len : Nat} {mask : Option (List Nat)}
    (h : Frame.read_chunk_md chunk server ms = .ok (.Ready (idx, fin, code, len, mask))) :
    code ≠ .Bad := by
  simp only [Frame.read_chunk_md] at h
  split_ifs at h <;>
    first
    | (rw [finish_chunk_md_opcode h]; assumption)
    | exact absurd h (by simp)

lemma read_copy_md_opcode {st : PayloadHelper} {server : Bool} {ms : Nat}
    {idx : Nat} {fin : Bool} {code : OpCode} {len : Nat} {mask : Option (List Nat)}
    (h : Frame.read_copy_md st server ms
      = .ok (.Ready (some (idx, fin, code, len, mask)))) :
    code ≠ .Bad := by
  rw [read_copy_md_eq] at h
  rcases hx : Frame.read_chunk_md st.bytes server ms with e0 | a
  · rw [hx] at h
    simp [liftMd] at h
  · cases a with
    | Ready r =>
      rw [hx] at h
      obtain ⟨i2, f2, c2, l2, m2⟩ := r
      simp only [liftMd, Except.ok.injEq, Async.Ready.injEq, Option.some.injEq,
        Prod.mk.injEq] at h
      obtain ⟨-, -, hc, -, -⟩ := h
      subst hc
      exact read_chunk_md_opcode hx
    | NotReady =>
      rw [hx] at h
      cases he : st.eof <;> simp [liftMd, he] at h

lemma parse_md_opcode {st : PayloadHelper} {server : Bool} {ms : Nat}
    {idx : Nat} {fin : Bool} {code : OpCode} {len : Nat} {mask : Option (List Nat)}
    (h : Frame.parse_md st server ms = .ok (.Ready (some (idx, fin, code, len, mask)))) :
    code ≠ .Bad := by
  rw [Frame.parse_md] at h
  rcases hst : st.chunks with - | ⟨c, cs⟩
  · rw [show st.get_chunk = if st.eof then .Ready none else .NotReady from by
      rw [PayloadHelper.get_chunk, hst]] at h
    cases he : st.eof <;> simp [he] at h
  · have hgc : st.get_chunk = .Ready (some c) := by
      rw [PayloadHelper.get_chunk, hst]
    rcases hc : Frame.read_chunk_md c server ms with e0 | a
    · simp [hgc, hc] at h
    · cases a with
      | Ready r =>
        obtain ⟨i2, f2, c2, l2, m2⟩ := r
        simp only [hgc, hc, Except.ok.injEq, Async.Ready.injEq, Option.some.injEq,
          Prod.mk.injEq] at h
        obtain ⟨-, -, hcc, -, -⟩ := h
        subst hcc
        exact read_chunk_md_opcode hc
      | NotReady =>
        simp only [hgc, hc] at h
        exact read_copy_md_opcode h

lemma parse_body_opcode {st : PayloadHelper} {idx : Nat} {fin : Bool}
    {code : OpCode} {len : Nat} {mask : Option (List Nat)} {f : Frame}
    (h : Frame.parse_body st (idx, fin, code, len, mask)
      = some (.ok (.Ready (some f))))
    (hcode : code ≠ .Bad) : f.opcode ≠ .Bad := by
  rcases hcr : st.can_read (idx + len) with val | -
  on_goal 2 => simp only [Frame.parse_body, hcr] at h; simp at h
  rcases val with - | b
  · simp only [Frame.parse_body, hcr] at h
    simp at h
  · cases b with
    | false =>
      simp only [Frame.parse_body, hcr] at h
      simp at h
    | true =>
      simp only [Frame.parse_body, hcr] at h
      by_cases hz : len = 0
      · rw [if_pos hz] at h
        simp at h
        rw [← h]
        exact hcode
      · rw [if_neg hz] at h
        rcases hre : (st.drop_payload idx).read_exact len with v2 | -
        on_goal 2 => rw [hre] at h; simp at h
        rcases v2 with - | data
        · rw [hre] at h
          simp at h
        · rw [hre] at h
          split_ifs at h with hctl1 hctl2
          · simp at h
          · simp at h
            rw [← h]
            decide
          · cases mask with
            | some m =>
              simp at h
              rw [← h]
              exact hcode
            | none =>
              simp at h
              rw [← h]
              exact hcode


lemma overflow_masked_small (f L ms : Nat)
    (hf : OpCode.fromNibble (f &&& 0x0F) ≠ .Bad) (hms : ms < L) (hL : L ≤ 125) :
    Frame.read_chunk_md [f, 128 + L] true ms = .error .Overflow := by
  simp only [Frame.read_chunk_md, Frame.finish_chunk_md, List.length_cons,
    List.getD_cons_zero, List.getD_cons_succ]
  rw [if_neg (by omega)]
  rw [add128_and128 (by omega), add128_and127 (by omega)]
  simp only [show ((128 : Nat) != 0) = true from rfl, Bool.not_true, Bool.false_and,
    Bool.and_false, Bool.false_eq_true, if_false]
  rw [if_neg hf, if_neg (by omega : ¬L = 126), if_neg (by omega : ¬L = 127),
    if_pos hms]

lemma overflow_masked_ext2 (f L ms : Nat)
    (hf : OpCode.fromNibble (f &&& 0x0F) ≠ .Bad) (hms : ms < L) (hL : L ≤ 65535) :
    Frame.read_chunk_md (f :: 254 :: beBytes 2 L) true ms = .error .Overflow := by
  simp only [Frame.read_chunk_md, Frame.finish_chunk_md, List.length_cons,
    List.getD_cons_zero, List.getD_cons_succ]
  rw [if_neg (by omega)]
  rw [show (254 : Nat) &&& 0x80 = 128 from by decide,
    show (254 : Nat) &&& 0x7F = 126 from by decide]
  simp only [show ((128 : Nat) != 0) = true from rfl, Bool.not_true, Bool.false_and,
    Bool.and_false, Bool.false_eq_true, if_false]
  rw [if_neg hf, if_pos trivial, if_neg (show ¬(beBytes 2 L).length + 1 + 1 < 4 from by
    simp [beBytes_length])]
  rw [show (f :: 254 :: beBytes 2 L).drop 2 = beBytes 2 L from rfl,
    List.take_of_length_le (by simp [beBytes_length]), beRead_beBytes,
    Nat.mod_eq_of_lt (by omega : L < 256 ^ 2), if_pos hms]

lemma overflow_masked_ext8 (f L ms : Nat)
    (hf : OpCode.fromNibble (f &&& 0x0F) ≠ .Bad) (hms : ms < L) (hL : L < 2 ^ 64) :
    Frame.read_chunk_md (f :: 255 :: beBytes 8 L) true ms = .error .Overflow := by
  simp only [Frame.read_chunk_md, Frame.finish_chunk_md, List.length_cons,
    List.getD_cons_zero, List.getD_cons_succ]
  rw [if_neg (by omega)]
  rw [show (255 : Nat) &&& 0x80 = 128 from by decide,
    show (255 : Nat) &&& 0x7F = 127 from by decide]
  simp only [show ((128 : Nat) != 0) = true from rfl, Bool.not_true, Bool.false_and,
    Bool.and_false, Bool.false_eq_true, if_false]
  rw [if_neg hf, if_neg (show ¬(127 : Nat) = 126 from by omega), if_pos trivial,
    if_neg (show ¬(beBytes 8 L).length + 1 + 1 < 10 from by simp [beBytes_length])]
  rw [show (f :: 255 :: beBytes 8 L).drop 2 = beBytes 8 L from rfl,
    List.take_of_length_le (by simp [beBytes_length]), beRead_beBytes,
    Nat.mod_eq_of_lt (by omega : L < 256 ^ 8), if_pos hms]

end DecodeLemmas

section Claims

/-- C1 (amended): encoding with `Frame::message` (genmask = false) and decoding
with `Frame::parse` under the matching client role and a sufficiently large
`max_size` returns the original finished flag, opcode and payload — for every
valid (non-`Bad`) opcode, provided that for the control opcodes Close, Ping
and Pong the payload is at most 125 bytes (larger control payloads are
rejected or replaced by the decoder's control-frame policy, which is what
falsifies the unamended claim). -/
theorem C1_roundtrip (rnd payload : List Nat) (code : OpCode) (fin : Bool)
    (ms : Nat) (e : Bool) (hcode : code ≠ .Bad) (h64 : payload.length < 2 ^ 64)
    (hms : payload.length ≤ ms)
    (hctl : (code = .Close ∨ code = .Ping ∨ code = .Pong) → payload.length ≤ 125) :
    Frame.parse ⟨[Frame.message rnd payload code fin false], e⟩ false ms
      = some (.ok (.Ready (some ⟨fin, code, payload⟩))) := by
  have hp : ¬((code = .Ping ∨ code = .Pong) ∧ 125 < payload.length) := by
    rintro ⟨hor, hlt⟩
    have := hctl (by tauto)
    omega
  have hc : ¬(code = .Close ∧ 125 < payload.length) := by
    rintro ⟨hcl, hlt⟩
    have := hctl (Or.inl hcl)
    omega
  rw [message_unmasked,
    parse_mkHeader fin code payload.length payload ms e hcode h64 hms rfl,
    if_neg hp, if_neg hc]

/-- C1 witness: the concrete Text frame round-trip. -/
theorem C1_roundtrip_witness :
    Frame.parse ⟨[Frame.message [] [49] .Text false false], true⟩ false 1024
      = some (.ok (.Ready (some ⟨false, .Text, [49]⟩))) :=
  C1_roundtrip [] [49] .Text false 1024 true (by decide) (by decide) (by decide)
    (by decide)

/-- C1 counterexample: a Ping frame with a 126-byte payload encodes fine but
does not decode back — `Frame::parse` rejects it with `InvalidLength 126`,
so the round-trip claim fails for control opcodes with payloads over
125 bytes. -/
theorem C1_roundtrip_counterexample :
    Frame.parse ⟨[Frame.message [] (List.replicate 126 0) .Ping true false],
        true⟩ false 1024
      = some (.error (.InvalidLength 126))
    ∧ Frame.parse ⟨[Frame.message [] (List.replicate 126 0) .Ping true false],
        true⟩ false 1024
      ≠ some (.ok (.Ready (some ⟨true, .Ping, List.replicate 126 0⟩))) := by
  have h : Frame.parse ⟨[Frame.message [] (List.replicate 126 0) .Ping true false],
      true⟩ false 1024 = some (.error (.InvalidLength 126)) := by
    rw [message_unmasked]
    rw [show (List.replicate 126 (0 : Nat)).length = 126 from by simp]
    rw [parse_mkHeader true .Ping 126 (List.replicate 126 0) 1024 true (by decide)
      (by decide) (by decide) (by simp)]
    rw [if_pos ⟨Or.inl rfl, by omega⟩]
  exact ⟨h, by rw [h]; simp⟩

/-- C2: the copying slow path `Frame::read_copy_md` returns exactly what the
contiguous fast path `Frame::read_chunk_md` returns on the flattened byte
sequence (same header tuple, same error; insufficient bytes refined by the
end-of-stream flag), and consequently `Frame::parse` is invariant under any
re-chunking of the input — a frame split at every possible byte boundary
decodes to the same Frame as the unfragmented input. -/
theorem C2_fast_slow_equivalence (cs : List (List Nat)) (e server : Bool)
    (ms : Nat) :
    Frame.read_copy_md ⟨cs, e⟩ server ms
      = liftMd e (Frame.read_chunk_md cs.flatten server ms)
    ∧ Frame.parse ⟨cs, e⟩ server ms = Frame.parse ⟨[cs.flatten], e⟩ server ms :=
  ⟨read_copy_md_eq ⟨cs, e⟩ server ms, parse_eq_flatten cs e server ms⟩

/-- C3: with at least the 2-byte base header available, a clear mask bit with
the server role fails `UnmaskedFrame` and a set mask bit with the client role
fails `MaskedFrame`, on both header paths, whatever the opcode byte is. -/
theorem C3_role_enforcement (bs : List Nat) (ms : Nat) (e : Bool)
    (h2 : 2 ≤ bs.length) :
    (bs.getD 1 0 &&& 0x80 = 0 →
      Frame.read_chunk_md bs true ms = .error .UnmaskedFrame
      ∧ Frame.read_copy_md ⟨[bs], e⟩ true ms = .error .UnmaskedFrame)
    ∧ (bs.getD 1 0 &&& 0x80 ≠ 0 →
      Frame.read_chunk_md bs false ms = .error .MaskedFrame
      ∧ Frame.read_copy_md ⟨[bs], e⟩ false ms = .error .MaskedFrame) := by
  constructor
  · intro h
    have h' : (bs.getD 1 0 &&& 0x80 != 0) = false := by rw [h]; decide
    have hchunk : Frame.read_chunk_md bs true ms = .error .UnmaskedFrame := by
      simp only [Frame.read_chunk_md]
      rw [if_neg (show ¬bs.length < 2 by omega), h',
        if_pos (show (!(false : Bool) && true) = true from rfl)]
    exact ⟨hchunk, by rw [read_copy_md_eq, bytes_single, hchunk, liftMd]⟩
  · intro h
    have h' : (bs.getD 1 0 &&& 0x80 != 0) = true := by
      rcases hx : bs.getD 1 0 &&& 0x80 with - | k
      · exact absurd hx h
      · rfl
    have hchunk : Frame.read_chunk_md bs false ms = .error .MaskedFrame := by
      simp only [Frame.read_chunk_md]
      rw [if_neg (show ¬bs.length < 2 by omega), h',
        if_neg (show ¬((!(true : Bool) && false) = true) from by decide),
        if_pos (show ((true : Bool) && !false) = true from rfl)]
    exact ⟨hchunk, by rw [read_copy_md_eq, bytes_single, hchunk, liftMd]⟩

/-- C3 witness: concrete unmasked/masked two-byte headers. -/
theorem C3_role_enforcement_witness :
    Frame.read_chunk_md [1, 1] true 1024 = .error .UnmaskedFrame
    ∧ Frame.read_chunk_md [1, 0x81] false 1024 = .error .MaskedFrame :=
  ⟨((C3_role_enforcement [1, 1] 1024 true (by decide)).1 (by decide)).1,
   ((C3_role_enforcement [1, 0x81] 1024 true (by decide)).2 (by decide)).1⟩

/-- C4: a declared payload length greater than `max_size` makes both header
paths fail with `Overflow` as soon as the length field is decoded: the inputs
below contain only the header bytes up to the length field — no mask key and
no payload byte is ever supplied (and for the copying path the stream need
not even have ended), yet the result is the `Overflow` error, not a request
for more data. -/
theorem C4_overflow_before_mask (f L ms : Nat) (server e : Bool)
    (hf : OpCode.fromNibble (f &&& 0x0F) ≠ .Bad) (hms : ms < L) :
    (L ≤ 125 →
      Frame.read_chunk_md [f, (if server then 0x80 else 0) + L] server ms
        = .error .Overflow
      ∧ Frame.read_copy_md ⟨[[f, (if server then 0x80 else 0) + L]], e⟩ server ms
        = .error .Overflow)
    ∧ (L ≤ 65535 →
      Frame.read_chunk_md ([f, (if server then 0x80 else 0) + 126] ++ beBytes 2 L)
          server ms = .error .Overflow
      ∧ Frame.read_copy_md
          ⟨[[f, (if server then 0x80 else 0) + 126] ++ beBytes 2 L], e⟩ server ms
        = .error .Overflow)
    ∧ (L < 2 ^ 64 →
      Frame.read_chunk_md ([f, (if server then 0x80 else 0) + 127] ++ beBytes 8 L)
          server ms = .error .Overflow
      ∧ Frame.read_copy_md
          ⟨[[f, (if server then 0x80 else 0) + 127] ++ beBytes 8 L], e⟩ server ms
        = .error .Overflow) := by
  refine ⟨fun hL => ?_, fun hL => ?_, fun hL => ?_⟩ <;> cases server
  · have hred : ((if (false : Bool) then (0x80 : Nat) else 0) + L) = L := by simp
    rw [hred]
    have hchunk : Frame.read_chunk_md [f, L] false ms = .error .Overflow := by
      rw [read_chunk_md_small f L [] ms (by omega) hf, if_pos hms]
    exact ⟨hchunk, by rw [read_copy_md_eq, bytes_single, hchunk, liftMd]⟩
  · have hred : ((if (true : Bool) then (0x80 : Nat) else 0) + L) = 128 + L := by simp
    rw [hred]
    have hchunk : Frame.read_chunk_md [f, 128 + L] true ms = .error .Overflow :=
      overflow_masked_small f L ms hf hms hL
    exact ⟨hchunk, by rw [read_copy_md_eq, bytes_single, hchunk, liftMd]⟩
  · have hred : ((if (false : Bool) then (0x80 : Nat) else 0) + 126) = 126 := by simp
    rw [hred]
    have hchunk0 : Frame.read_chunk_md (f :: 126 :: beBytes 2 L) false ms
        = .error .Overflow := by
      have h126 := read_chunk_md_ext2 f L [] ms hL hf
      rw [List.append_nil] at h126
      rw [h126, if_pos hms]
    have hchunk : Frame.read_chunk_md ([f, 126] ++ beBytes 2 L) false ms
        = .error .Overflow := hchunk0
    exact ⟨hchunk, by rw [read_copy_md_eq, bytes_single, hchunk, liftMd]⟩
  · have hred : ((if (true : Bool) then (0x80 : Nat) else 0) + 126) = 254 := by simp
    rw [hred]
    have hchunk : Frame.read_chunk_md ([f, 254] ++ beBytes 2 L) true ms
        = .error .Overflow := overflow_masked_ext2 f L ms hf hms hL
    exact ⟨hchunk, by rw [read_copy_md_eq, bytes_single, hchunk, liftMd]⟩
  · have hred : ((if (false : Bool) then (0x80 : Nat) else 0) + 127) = 127 := by simp
    rw [hred]
    have hchunk0 : Frame.read_chunk_md (f :: 127 :: beBytes 8 L) false ms
        = .error .Overflow := by
      have h127 := read_chunk_md_ext8 f L [] ms hL hf
      rw [List.append_nil] at h127
      rw [h127, if_pos hms]
    have hchunk : Frame.read_chunk_md ([f, 127] ++ beBytes 8 L) false ms
        = .error .Overflow := hchunk0
    exact ⟨hchunk, by rw [read_copy_md_eq, bytes_single, hchunk, liftMd]⟩
  · have hred : ((if (true : Bool) then (0x80 : Nat) else 0) + 127) = 255 := by simp
    rw [hred]
    have hchunk : Frame.read_chunk_md ([f, 255] ++ beBytes 8 L) true ms
        = .error .Overflow := overflow_masked_ext8 f L ms hf hms hL
    exact ⟨hchunk, by rw [read_copy_md_eq, bytes_single, hchunk, liftMd]⟩

/-- C4 witness: a masked 5-byte declaration against a ceiling of 4, with the
mask and payload bytes absent and the stream still open. -/
theorem C4_overflow_before_mask_witness :
    Frame.read_chunk_md [1, 133] true 4 = .error .Overflow
    ∧ Frame.read_copy_md ⟨[[1, 133]], false⟩ true 4 = .error .Overflow :=
  (C4_overflow_before_mask 1 5 4 true false (by decide) (by decide)).1 (by decide)

/-- C5: a decoded frame whose payload length exceeds 125, with the payload
bytes supplied and within `max_size`: Ping and Pong fail with
`InvalidLength` carrying that length, while Close succeeds and is replaced
by the default frame — finished, opcode Close, empty payload. -/
theorem C5_control_frame_limits (fin : Bool) (n ms : Nat) (payload : List Nat)
    (e : Bool) (hlen : payload.length = n) (h125 : 125 < n) (h64 : n < 2 ^ 64)
    (hms : n ≤ ms) :
    Frame.parse ⟨[Frame.message [] payload .Ping fin false], e⟩ false ms
      = some (.error (.InvalidLength n))
    ∧ Frame.parse ⟨[Frame.message [] payload .Pong fin false], e⟩ false ms
      = some (.error (.InvalidLength n))
    ∧ Frame.parse ⟨[Frame.message [] payload .Close fin false], e⟩ false ms
      = some (.ok (.Ready (some Frame.default)))
    ∧ Frame.default = ⟨true, .Close, []⟩ := by
  subst hlen
  refine ⟨?_, ?_, ?_, rfl⟩
  · rw [message_unmasked,
      parse_mkHeader fin .Ping payload.length payload ms e (by decide) h64 hms rfl,
      if_pos ⟨Or.inl rfl, h125⟩]
  · rw [message_unmasked,
      parse_mkHeader fin .Pong payload.length payload ms e (by decide) h64 hms rfl,
      if_pos ⟨Or.inr rfl, h125⟩]
  · rw [message_unmasked,
      parse_mkHeader fin .Close payload.length payload ms e (by decide) h64 hms rfl,
      if_neg (by rintro ⟨h1 | h1, -⟩ <;> simp at h1), if_pos ⟨rfl, h125⟩]

/-- C5 witness: 126-byte Ping and Close frames. -/
theorem C5_control_frame_limits_witness :
    Frame.parse ⟨[Frame.message [] (List.replicate 126 0) .Ping true false],
        true⟩ false 65535
      = some (.error (.InvalidLength 126))
    ∧ Frame.parse ⟨[Frame.message [] (List.replicate 126 0) .Close true false],
        true⟩ false 65535
      = some (.ok (.Ready (some Frame.default))) := by
  have h := C5_control_frame_limits true 126 65535 (List.replicate 126 0) true
    (by simp) (by omega) (by omega) (by omega)
  exact ⟨h.1, h.2.2.1⟩

/-- C6 counterexample: the input `[0x03, 0x00]` has the reserved opcode
nibble 3, yet decoding it with the server role fails with `UnmaskedFrame`,
not `InvalidOpcode 3` — the masking check runs before the opcode check, so
the claim is false for arbitrary contents of the rest of the header. -/
theorem C6_invalid_opcode_counterexample :
    Frame.read_chunk_md [3, 0] true 1024 = .error .UnmaskedFrame
    ∧ Frame.read_chunk_md [3, 0] true 1024 ≠ .error (.InvalidOpcode 3) :=
  ⟨by decide, by decide⟩

/-- C6 (amended): for every input with the 2-byte base header available whose
mask bit is consistent with the decoding role, a reserved opcode nibble
(3-7 or 11-15) makes both header paths fail with `InvalidOpcode` carrying
that nibble. -/
theorem C6_invalid_opcode (bs : List Nat) (server e : Bool) (ms : Nat)
    (h2 : 2 ≤ bs.length)
    (hmask : (bs.getD 1 0 &&& 0x80 ≠ 0) ↔ server = true)
    (hnib : 3 ≤ bs.getD 0 0 &&& 0x0F ∧ bs.getD 0 0 &&& 0x0F ≤ 7
      ∨ 11 ≤ bs.getD 0 0 &&& 0x0F) :
    Frame.read_chunk_md bs server ms
      = .error (.InvalidOpcode (bs.getD 0 0 &&& 0x0F))
    ∧ Frame.read_copy_md ⟨[bs], e⟩ server ms
      = .error (.InvalidOpcode (bs.getD 0 0 &&& 0x0F)) := by
  have hle : bs.getD 0 0 &&& 0x0F ≤ 15 := Nat.and_le_right
  have hcases : bs.getD 0 0 &&& 0x0F = 3 ∨ bs.getD 0 0 &&& 0x0F = 4
      ∨ bs.getD 0 0 &&& 0x0F = 5 ∨ bs.getD 0 0 &&& 0x0F = 6
      ∨ bs.getD 0 0 &&& 0x0F = 7 ∨ bs.getD 0 0 &&& 0x0F = 11
      ∨ bs.getD 0 0 &&& 0x0F = 12 ∨ bs.getD 0 0 &&& 0x0F = 13
      ∨ bs.getD 0 0 &&& 0x0F = 14 ∨ bs.getD 0 0 &&& 0x0F = 15 := by omega
  have hbad : OpCode.fromNibble (bs.getD 0 0 &&& 0x0F) = .Bad := by
    rcases hcases with h | h | h | h | h | h | h | h | h | h <;> rw [h] <;> decide
  have hchunk : Frame.read_chunk_md bs server ms
      = .error (.InvalidOpcode (bs.getD 0 0 &&& 0x0F)) := by
    cases server with
    | true =>
      have h' : (bs.getD 1 0 &&& 0x80 != 0) = true := by
        rcases hx : bs.getD 1 0 &&& 0x80 with - | k
        · exact absurd hx (by simpa using hmask.mpr rfl)
        · rfl
      simp only [Frame.read_chunk_md]
      rw [if_neg (show ¬bs.length < 2 by omega), h',
        if_neg (show ¬((!(true : Bool) && true) = true) from by decide),
        if_neg (show ¬(((true : Bool)) && !true) = true from by decide),
        if_pos hbad]
    | false =>
      have h' : (bs.getD 1 0 &&& 0x80 != 0) = false := by
        have : bs.getD 1 0 &&& 0x80 = 0 := by
          by_contra hne
          exact absurd (hmask.mp hne) (by simp)
        rw [this]
        decide
      simp only [Frame.read_chunk_md]
      rw [if_neg (show ¬bs.length < 2 by omega), h',
        if_neg (show ¬((!(false : Bool) && false) = true) from by decide),
        if_neg (show ¬(((false : Bool) && !false) = true) from by decide),
        if_pos hbad]
  exact ⟨hchunk, by rw [read_copy_md_eq, bytes_single, hchunk, liftMd]⟩

/-- C6 witness: a masked header with reserved nibble 3 decoded as server. -/
theorem C6_invalid_opcode_witness :
    Frame.read_chunk_md [3, 128] true 1024 = .error (.InvalidOpcode 3) :=
  (C6_invalid_opcode [3, 128] true true 1024 (by decide) (by decide)
    (by decide)).1

/-- C7: the encoder selects the length class by payload size — inline 7-bit
length below 126, marker 126 plus big-endian 16-bit length up to 65535,
marker 127 plus big-endian 64-bit length above — shown byte-exactly at each
boundary payload length 0, 1, 125, 126, 65535, 65536, and decoding each
encoded frame returns the payload (hence the exact original length). -/
theorem C7_length_boundaries :
    (Frame.message [] (List.replicate 0 0) .Binary true false
      = [0x82, 0] ++ List.replicate 0 0)
    ∧ (Frame.message [] (List.replicate 1 0) .Binary true false
      = [0x82, 1] ++ List.replicate 1 0)
    ∧ (Frame.message [] (List.replicate 125 0) .Binary true false
      = [0x82, 125] ++ List.replicate 125 0)
    ∧ (Frame.message [] (List.replicate 126 0) .Binary true false
      = [0x82, 126, 0, 126] ++ List.replicate 126 0)
    ∧ (Frame.message [] (List.replicate 65535 0) .Binary true false
      = [0x82, 126, 0xFF, 0xFF] ++ List.replicate 65535 0)
    ∧ (Frame.message [] (List.replicate 65536 0) .Binary true false
      = [0x82, 127, 0, 0, 0, 0, 0, 1, 0, 0] ++ List.replicate 65536 0)
    ∧ (Frame.parse ⟨[Frame.message [] (List.replicate 0 0) .Binary true false],
        true⟩ false 65536
      = some (.ok (.Ready (some ⟨true, .Binary, List.replicate 0 0⟩))))
    ∧ (Frame.parse ⟨[Frame.message [] (List.replicate 1 0) .Binary true false],
        true⟩ false 65536
      = some (.ok (.Ready (some ⟨true, .Binary, List.replicate 1 0⟩))))
    ∧ (Frame.parse ⟨[Frame.message [] (List.replicate 125 0) .Binary true false],
        true⟩ false 65536
      = some (.ok (.Ready (some ⟨true, .Binary, List.replicate 125 0⟩))))
    ∧ (Frame.parse ⟨[Frame.message [] (List.replicate 126 0) .Binary true false],
        true⟩ false 65536
      = some (.ok (.Ready (some ⟨true, .Binary, List.replicate 126 0⟩))))
    ∧ (Frame.parse ⟨[Frame.message [] (List.replicate 65535 0) .Binary true false],
        true⟩ false 65536
      = some (.ok (.Ready (some ⟨true, .Binary, List.replicate 65535 0⟩))))
    ∧ (Frame.parse ⟨[Frame.message [] (List.replicate 65536 0) .Binary true false],
        true⟩ false 65536
      = some (.ok (.Ready (some ⟨true, .Binary, List.replicate 65536 0⟩)))) := by
  refine ⟨?_, ?_, ?_, ?_, ?_, ?_, ?_, ?_, ?_, ?_, ?_, ?_⟩
  · rw [message_unmasked]
    simp only [List.length_replicate]
    rw [show mkHeader true .Binary 0 = [0x82, 0] from by decide]
  · rw [message_unmasked]
    simp only [List.length_replicate]
    rw [show mkHeader true .Binary 1 = [0x82, 1] from by decide]
  · rw [message_unmasked]
    simp only [List.length_replicate]
    rw [show mkHeader true .Binary 125 = [0x82, 125] from by decide]
  · rw [message_unmasked]
    simp only [List.length_replicate]
    rw [show mkHeader true .Binary 126 = [0x82, 126, 0, 126] from by decide]
  · rw [message_unmasked]
    simp only [List.length_replicate]
    rw [show mkHeader true .Binary 65535 = [0x82, 126, 0xFF, 0xFF] from by decide]
  · rw [message_unmasked]
    simp only [List.length_replicate]
    rw [show mkHeader true .Binary 65536
      = [0x82, 127, 0, 0, 0, 0, 0, 1, 0, 0] from by decide]
  all_goals
    rw [message_unmasked]
    simp only [List.length_replicate]
    rw [parse_mkHeader true .Binary _ _ 65536 true (by decide) (by decide)
      (by decide) (List.length_replicate _ _)]
    rw [if_neg (by decide), if_neg (by decide)]

/-- C8: `Frame::close` builds a Close frame whose payload is the big-endian
16-bit close code followed by the reason bytes, except that the `Empty`
sentinel yields a zero-length payload whatever the reason; concretely,
`Frame::close(Normal, "data", genmask = false)` encodes to
`[0x88, 0x06, 0x03, 0xE8, 'd', 'a', 't', 'a']`. -/
theorem C8_close_frame :
    (∀ (rnd : List Nat) (code : CloseCode) (reason : List Nat) (genmask : Bool),
      Frame.close rnd code reason genmask
        = Frame.message rnd
            (if code = CloseCode.Empty then []
             else beBytes 2 code.toU16 ++ reason) .Close true genmask)
    ∧ Frame.close [] .Normal [100, 97, 116, 97] false
      = [0x88, 0x06, 0x03, 0xE8, 100, 97, 116, 97] :=
  ⟨fun _ _ _ _ => rfl, by decide⟩

/-- C9: `Frame::parse` never reaches its `panic!` branch: the exact payload
read runs only after the availability check has confirmed that header plus
payload are buffered, and under that precondition `read_exact` cannot return
`NotReady` (the panic outcome is modelled as `none`). -/
theorem C9_no_panic (st : PayloadHelper) (server : Bool) (ms : Nat) :
    Frame.parse st server ms ≠ none := by
  rw [Frame.parse]
  rcases hmd : Frame.parse_md st server ms with e0 | a
  · simp
  · cases a with
    | NotReady => simp
    | Ready o =>
      cases o with
      | none => simp
      | some hdr => exact parse_body_ne_none st hdr

/-- C10: every Frame produced by `Frame::parse` carries a valid opcode —
never `OpCode.Bad` — because an invalid nibble aborts header decoding with
an error before any Frame is built, and the substituted default Close frame
also has a valid opcode. -/
theorem C10_parse_opcode_valid (st : PayloadHelper) (server : Bool) (ms : Nat)
    (f : Frame) (h : Frame.parse st server ms = some (.ok (.Ready (some f)))) :
    f.opcode ≠ .Bad := by
  rw [Frame.parse] at h
  rcases hmd : Frame.parse_md st server ms with e0 | a
  · rw [hmd] at h
    simp at h
  · cases a with
    | NotReady =>
      rw [hmd] at h
      simp at h
    | Ready o =>
      cases o with
      | none =>
        rw [hmd] at h
        simp at h
      | some hdr =>
        obtain ⟨idx, fin, code, len, mask⟩ := hdr
        simp only [hmd] at h
        exact parse_body_opcode h (parse_md_opcode hmd)

/-- C10 witness: the concrete Text frame decode carries opcode Text. -/
theorem C10_parse_opcode_valid_witness :
    (⟨false, .Text, [49]⟩ : Frame).opcode ≠ .Bad :=
  C10_parse_opcode_valid ⟨[[1, 1, 49]], true⟩ false 1024 ⟨false, .Text, [49]⟩
    (by decide)

end Claims
